import Mathlib

/-!
A shallow embedding of the Leads Validator application (src/app.py) and a
verification of its batch-lifecycle and deduplication behaviour.

The application keeps uploaded CSV batches in a csv_uploads table
(columns id, filename, csv_data, status) and processed lead records in a
processed_leads table (columns id, username, and further descriptive
columns).  We model both tables as lists of records, model text as lists
of Unicode code points (Python str semantics), and model each
user-triggered handler of the app as a pure function from the store to
the store together with its observable outcome.  The external enrichment
webhook call is a parameter of the dispatch function: the caller supplies
the transport result (a transport failure, or a response with a numeric
status code).
-/

namespace LeadsValidator

/-- A row of the csv_uploads table (src/app.py lines 105, 118, 140, 207, 231):
surrogate id, filename, the stored csv_data text (code points of the JSON
document written at upload time) and the lifecycle status string. -/
structure Batch where
  id : Nat
  filename : String
  csvData : List Nat
  status : String
deriving Repr, DecidableEq

/-- A row of the processed_leads table (src/app.py lines 274-277, 290-292):
surrogate id, the username column used as the deduplication identity key, and
the remaining descriptive columns (qualified, reason, profile_link, bio,
category, email, full_name), opaque to the logic modelled here. -/
structure ResultRecord where
  id : Nat
  username : String
  fields : List String
deriving Repr, DecidableEq

/-! ### The JSON payload encoding (json.dumps / json.loads on the stored text)

src/app.py line 114 stores `json.dumps(\x7b"csv_content": csv_text\x7d)` and
line 213-214 reads it back with `json.loads(result).get("csv_content")`.
We model Python's json encoder (ensure_ascii, the default) and the string
scanner of its decoder at the level of code points. -/

/-- Code point of the lowercase hexadecimal digit of `n < 16`
(Python formats escapes with `%04x`, lowercase). -/
def hexDigit (n : Nat) : Nat := if n < 10 then 48 + n else 87 + n

/-- The four hexadecimal digit code points of `n < 65536`, most significant
first, as produced by Python's `\u%04x` escapes. -/
def hex4 (n : Nat) : List Nat :=
  [hexDigit (n / 4096 % 16), hexDigit (n / 256 % 16), hexDigit (n / 16 % 16),
    hexDigit (n % 16)]

/-- json.dumps escaping of one code point with ensure_ascii (CPython
py_encode_basestring_ascii): named escapes for quote, backslash and the
common control characters, `\u00xx` for the remaining control characters,
printable ASCII kept literal, `\uxxxx` for other code points below 0x10000
and a UTF-16 surrogate pair of escapes above it. -/
def escapeChar (c : Nat) : List Nat :=
  if c = 34 then [92, 34]
  else if c = 92 then [92, 92]
  else if c = 8 then [92, 98]
  else if c = 9 then [92, 116]
  else if c = 10 then [92, 110]
  else if c = 12 then [92, 102]
  else if c = 13 then [92, 114]
  else if c < 32 then 92 :: 117 :: hex4 c
  else if c ≤ 126 then [c]
  else if c < 65536 then 92 :: 117 :: hex4 c
  else 92 :: 117 :: hex4 (55296 + (c - 65536) / 1024) ++
    92 :: 117 :: hex4 (56320 + (c - 65536) % 1024)

/-- The code points of the fixed JSON framing produced by json.dumps for a
one-key dict: an opening brace, the quoted key csv_content, a colon, a space
and the opening quote of the value.  Seventeen code points. -/
def csvContentKey : List Nat :=
  [123, 34, 99, 115, 118, 95, 99, 111, 110, 116, 101, 110, 116, 34, 58, 32, 34]

/-- json.dumps of the one-key dict holding the payload text `p`
(src/app.py line 114): the framing, the escaped payload, the closing quote
and the closing brace. -/
def jsonDumpsCsvContent (p : List Nat) : List Nat :=
  csvContentKey ++ (p.map escapeChar).flatten ++ [34, 125]

/-- Numeric value of one hexadecimal digit code point, accepting the digits
and both letter cases as Python's scanner does. -/
def hexVal (c : Nat) : Option Nat :=
  if 48 ≤ c ∧ c ≤ 57 then some (c - 48)
  else if 97 ≤ c ∧ c ≤ 102 then some (c - 87)
  else if 65 ≤ c ∧ c ≤ 70 then some (c - 55)
  else none

/-- Value of a four-digit hexadecimal escape body. -/
def hex4Val (a b e d : Nat) : Option Nat :=
  match hexVal a, hexVal b, hexVal e, hexVal d with
  | some x, some y, some z, some w => some (x * 4096 + y * 256 + z * 16 + w)
  | _, _, _, _ => none

/-- The string scanner of Python's json decoder (scanstring, strict mode),
consuming the body of a JSON string up to its closing quote and returning
the decoded code points together with the unconsumed remainder.  Escapes
are decoded as CPython does: named escapes, `\uxxxx` escapes, a high
surrogate immediately followed by a `\uxxxx` low surrogate combined into
one code point and otherwise kept as it is, raw control characters
rejected.  The fuel argument only serves termination; every call site
passes at least the length of the scanned list plus one, which is always
sufficient because each step consumes at least one code point.

The named single-character escapes of the scanner's BACKSLASH table come
first: the escape letter code point mapped to the decoded code point. -/
def scanNamedEscape (e1 : Nat) : Option Nat :=
  if e1 = 34 then some 34
  else if e1 = 92 then some 92
  else if e1 = 47 then some 47
  else if e1 = 98 then some 8
  else if e1 = 102 then some 12
  else if e1 = 110 then some 10
  else if e1 = 114 then some 13
  else if e1 = 116 then some 9
  else none

/-- After a high surrogate, the scanner looks for an immediately following
low-surrogate escape: a backslash, a u and four hex digits whose value is
in the low-surrogate range.  Returns its value and the remainder when
present. -/
def surrogateTail (t2 : List Nat) : Option (Nat × List Nat) :=
  match t2 with
  | u1 :: u2 :: a2 :: b2 :: e2 :: d2 :: t3 =>
    if u1 = 92 ∧ u2 = 117 then
      match hex4Val a2 b2 e2 d2 with
      | some h2 => if 56320 ≤ h2 ∧ h2 < 57344 then some (h2, t3) else none
      | none => none
    else none
  | _ => none

def scanString : Nat → List Nat → Option (List Nat × List Nat)
  | _, [] => none
  | 0, _ :: _ => none
  | fuel + 1, c :: t =>
    if c = 34 then some ([], t)
    else if c = 92 then
      match t with
      | [] => none
      | e1 :: t1 =>
        match scanNamedEscape e1 with
        | some ch => (scanString fuel t1).map (fun r => (ch :: r.1, r.2))
        | none =>
          if e1 = 117 then
            match t1 with
            | a :: b :: e :: d :: t2 =>
              match hex4Val a b e d with
              | none => none
              | some h =>
                if 55296 ≤ h ∧ h < 56320 then
                  match surrogateTail t2 with
                  | some (h2, t3) =>
                    (scanString fuel t3).map
                      (fun r => ((65536 + (h - 55296) * 1024 + (h2 - 56320)) :: r.1, r.2))
                  | none => (scanString fuel t2).map (fun r => (h :: r.1, r.2))
                else (scanString fuel t2).map (fun r => (h :: r.1, r.2))
            | _ => none
          else none
    else if c < 32 then none
    else (scanString fuel t).map (fun r => (c :: r.1, r.2))

/-- The composition `json.loads(result).get("csv_content")` applied to the
stored csv_data text (src/app.py lines 213-214), on the document shape the
store actually holds: the fixed one-key framing, the scanned string value
and the closing brace.  Returns none when the text does not parse back to
that shape (a JSONDecodeError or a missing key in the code). -/
def jsonLoadsCsvContent (s : List Nat) : Option (List Nat) :=
  if s.take 17 = csvContentKey then
    match scanString s.length (s.drop 17) with
    | some (content, [125]) => some content
    | _ => none
  else none

/-! ### The csv_uploads handlers -/

/-- Look a batch up by id, as the SQL queries with `WHERE id = :id` do. -/
def findBatch (bs : List Batch) (id : Nat) : Option Batch :=
  bs.find? (fun b => b.id == id)

/-- Outcome of the save handler. -/
inductive SaveOutcome
  | duplicateFilename
  | saved (id : Nat)
deriving Repr, DecidableEq

/-- Largest id present in the store (0 when empty). -/
def maxBatchId (bs : List Batch) : Nat := bs.foldr (fun b m => max b.id m) 0

/-- A fresh surrogate id, modelling the id the database assigns on INSERT. -/
def freshId (bs : List Batch) : Nat := maxBatchId bs + 1

/-- The Save-CSV handler (src/app.py lines 98-126): a SELECT checks whether
the filename already exists; if it does, the handler reports a duplicate and
inserts nothing; otherwise it inserts a new row whose csv_data is the
json.dumps document of the uploaded text and whose status is notstarted. -/
def saveCsvToPostgres (bs : List Batch) (filename : String) (csvText : List Nat) :
    SaveOutcome × List Batch :=
  if bs.any (fun b => b.filename == filename) then
    (SaveOutcome.duplicateFilename, bs)
  else
    (SaveOutcome.saved (freshId bs),
      bs ++ [{ id := freshId bs, filename := filename,
               csvData := jsonDumpsCsvContent csvText, status := "notstarted" }])

/-- Result of the external webhook call made by requests.post
(src/app.py line 226): either the transport raised, or a response with a
numeric status code arrived. -/
inductive ExtCall
  | transportError
  | response (code : Nat)
deriving Repr, DecidableEq

/-- Observable outcome of the Process-Leads handler.
notFound: the id is not in the store (lines 185-188, the file's details are
reported unavailable and processing is refused; line 218 reports the same
condition inside the handler).
preconditionFailed: status is not notstarted (lines 184, 200-202, 241 and
the caption 244-245): the button is disabled and the guard refuses.
parseError: the stored csv_data does not decode (lines 215-216).
exceptionError: the outer `except` at lines 238-239 reports an exception:
the transport raised, or control reached the misplaced `else` at lines
236-237, whose body reads the undefined variable `response` and raises.
silentNonSuccess: the response code was not 200: the `if` at line 228 falls
through with no `else` of its own, so nothing at all is reported (the error
text at line 237 belongs to the `if csv_data_text:` at line 220 and cannot
run on this path).
success: line 234 reports success after the status update. -/
inductive DispatchOutcome
  | notFound
  | preconditionFailed
  | parseError
  | exceptionError
  | silentNonSuccess
  | success
deriving Repr, DecidableEq

/-- What a run of the Process-Leads handler did: its outcome, whether the
external endpoint was invoked, the body given to requests.post when it was,
and the resulting csv_uploads store. -/
structure DispatchResult where
  outcome : DispatchOutcome
  endpointCalled : Bool
  bodySent : Option (List Nat)
  store : List Batch
deriving Repr, DecidableEq

/-- The status UPDATE of the dispatch path (src/app.py lines 230-233):
`UPDATE csv_uploads SET status = inprogress WHERE id = :id`.  The WHERE
clause filters on the id alone; the statement does not test the current
status. -/
def updateStatusInprogress (bs : List Batch) (id : Nat) : List Batch :=
  bs.map (fun b => if b.id == id then { b with status := "inprogress" } else b)

/-- The Process-Leads handler (src/app.py lines 178-241) invoked for the
batch with the given id, with the webhook's transport result supplied as a
parameter.  The handler reads the selected row's status (lines 178-184),
refuses unless it is notstarted (lines 184, 200-202), fetches and decodes
the stored csv_data (lines 206-218), posts the decoded text to the webhook
(lines 220-226) and on a 200 response updates the row's status to
inprogress and reports success (lines 228-235).  A non-200 response takes
the silent fall-through described at DispatchOutcome.silentNonSuccess; an
empty decoded text is falsy in Python, so it takes the misplaced `else` and
ends in the exception reporter without calling the endpoint. -/
def processLeads (bs : List Batch) (id : Nat) (ext : ExtCall) : DispatchResult :=
  match findBatch bs id with
  | none => ⟨DispatchOutcome.notFound, false, none, bs⟩
  | some b =>
    if b.status = "notstarted" then
      match jsonLoadsCsvContent b.csvData with
      | none => ⟨DispatchOutcome.parseError, false, none, bs⟩
      | some csvText =>
        if csvText = [] then ⟨DispatchOutcome.exceptionError, false, none, bs⟩
        else
          match ext with
          | ExtCall.transportError => ⟨DispatchOutcome.exceptionError, true, some csvText, bs⟩
          | ExtCall.response code =>
            if code = 200 then
              ⟨DispatchOutcome.success, true, some csvText, updateStatusInprogress bs id⟩
            else ⟨DispatchOutcome.silentNonSuccess, true, some csvText, bs⟩
    else ⟨DispatchOutcome.preconditionFailed, false, none, bs⟩

/-! ### The processed_leads handlers -/

/-- The DELETE's USING condition (src/app.py lines 273-277): record `r` is
deleted when some record of the same username has a strictly smaller id. -/
def supersededBy (rs : List ResultRecord) (r : ResultRecord) : Bool :=
  rs.any (fun r2 => decide (r2.id < r.id) && (r2.username == r.username))

/-- The deduplication DELETE (src/app.py lines 273-281): one set-based
delete against the pre-state, returning the surviving records and the
reported rowcount, the number of rows removed. -/
def dedupeRun (rs : List ResultRecord) : List ResultRecord × Nat :=
  (rs.filter (fun r => !(supersededBy rs r)),
    (rs.filter (fun r => supersededBy rs r)).length)

/-- Messages the deduplication handler can emit: the warning prompt of line
270, the success report of line 282 carrying the removed-row count, and the
error report of line 285 (emitted only when the database raises, which the
pure store model never does). -/
inductive DedupeMsg
  | warning
  | successRemoved (count : Nat)
  | errorMsg
deriving Repr, DecidableEq

/-- The deduplication handler (src/app.py lines 269-285) as written: the
outer button click shows the warning prompt; only when the inner
confirmation button is also pressed does the DELETE run and the removed-row
count get reported.  Without the confirmation nothing further happens: no
row is deleted and no message beyond the prompt is shown. -/
def dedupeHandler (clicked confirmClicked : Bool) (rs : List ResultRecord) :
    List DedupeMsg × List ResultRecord :=
  if clicked then
    if confirmClicked then
      ([DedupeMsg.warning, DedupeMsg.successRemoved (dedupeRun rs).2], (dedupeRun rs).1)
    else ([DedupeMsg.warning], rs)
  else ([], rs)

/-! ### The read-only queries and the operation alphabet -/

/-- One row of the file-selection query (src/app.py line 140):
`SELECT id, filename, status FROM csv_uploads ORDER BY filename ASC`. -/
structure FileRow where
  id : Nat
  filename : String
  status : String
deriving Repr, DecidableEq

/-- The ORDER BY relation of the file-selection query. -/
def fileRowLe (a b : FileRow) : Prop := a.filename ≤ b.filename

instance : DecidableRel fileRowLe :=
  fun a b => inferInstanceAs (Decidable (a.filename ≤ b.filename))

instance : IsTotal FileRow fileRowLe := ⟨fun a b => le_total a.filename b.filename⟩

instance : IsTrans FileRow fileRowLe := ⟨fun _ _ _ h1 h2 => le_trans h1 h2⟩

/-- The whole durable state: the csv_uploads table and the processed_leads
table. -/
structure SysState where
  batches : List Batch
  results : List ResultRecord
deriving Repr, DecidableEq

/-- The file-selection query (src/app.py line 140), returning the batch
summaries ordered by filename ascending. -/
def listFilesQuery (bs : List Batch) : List FileRow :=
  List.insertionSort fileRowLe
    (bs.map (fun b => { id := b.id, filename := b.filename, status := b.status }))

/-- The file-selection query as an operation on the whole state: it returns
its rows and leaves both stores untouched. -/
def listFilesRead (s : SysState) : List FileRow × SysState := (listFilesQuery s.batches, s)

/-- The operations of the core, as invokable from the app's handlers. -/
inductive Op
  | save (filename : String) (payload : List Nat)
  | process (id : Nat) (ext : ExtCall)
  | dedupe (clicked confirmClicked : Bool)
  | refresh
deriving Repr, DecidableEq

/-- State effect of one operation: save and process touch csv_uploads,
dedupe touches processed_leads, and the read-only refresh (the list and
count queries re-run by the periodic autorefresh) touches nothing. -/
def applyOp (s : SysState) : Op → SysState
  | Op.save f p => { s with batches := (saveCsvToPostgres s.batches f p).2 }
  | Op.process id ext => { s with batches := (processLeads s.batches id ext).store }
  | Op.dedupe c cc => { s with results := (dedupeHandler c cc s.results).2 }
  | Op.refresh => s

/-- Run a sequence of operations. -/
def runOps (s : SysState) (ops : List Op) : SysState := ops.foldl applyOp s

/-- The forward order on status values along the lifecycle
notstarted, inprogress, complete. -/
def statusLe (a b : String) : Prop :=
  a = b ∨ (a = "notstarted" ∧ (b = "inprogress" ∨ b = "complete")) ∨
    (a = "inprogress" ∧ b = "complete")

/-- A Unicode scalar value: what one element of a Python str decoded from
UTF-8 can be (below 0x110000 and not a surrogate). -/
def validScalar (c : Nat) : Prop := c < 1114112 ∧ (c < 55296 ∨ 57344 ≤ c)

instance (c : Nat) : Decidable (validScalar c) := by
  unfold validScalar
  infer_instance

/-- Filename uniqueness across the csv_uploads table (spec invariant I1). -/
def uniqueFilenames (bs : List Batch) : Prop := (bs.map Batch.filename).Nodup

/-- The concrete result store of the spec's dedup-correctness example. -/
def exampleResults : List ResultRecord :=
  [⟨1, "A", []⟩, ⟨2, "A", []⟩, ⟨3, "B", []⟩, ⟨4, "A", []⟩]

/-- A one-batch store holding a registered notstarted batch, used to
evaluate the dispatch handler on failing transport results. -/
def c4Store : List Batch :=
  [⟨1, "leads.csv", jsonDumpsCsvContent [97, 44, 98], "notstarted"⟩]

/-! ### Helper lemmas -/

theorem length_filter_split {α : Type} (l : List α) (p : α → Bool) :
    (l.filter p).length + (l.filter (fun a => !(p a))).length = l.length := by
  induction l with
  | nil => rfl
  | cons a t ih =>
    by_cases h : p a = true <;> simp [List.filter_cons, h] <;> omega

theorem supersededBy_eq_false_iff (rs : List ResultRecord) (r : ResultRecord) :
    supersededBy rs r = false ↔ ∀ r2 ∈ rs, r2.username = r.username → r.id ≤ r2.id := by
  simp only [supersededBy, List.any_eq_false, Bool.and_eq_true, decide_eq_true_eq,
    beq_iff_eq, not_and]
  constructor
  · intro h r2 h2 heq
    have := h r2 h2
    by_contra hlt
    exact this (by omega) heq
  · intro h r2 h2 hlt heq
    have := h r2 h2 heq
    omega

theorem save_preserves_unique (bs : List Batch) (f : String) (p : List Nat)
    (h : uniqueFilenames bs) : uniqueFilenames (saveCsvToPostgres bs f p).2 := by
  by_cases hdup : bs.any (fun b => b.filename == f) = true
  · simp [saveCsvToPostgres, hdup, h]
  · simp only [saveCsvToPostgres, hdup, Bool.false_eq_true, if_false]
    simp only [uniqueFilenames, List.map_append, List.map_cons, List.map_nil]
    rw [List.nodup_append]
    refine ⟨h, List.nodup_singleton _, ?_⟩
    intro x hx hx'
    simp only [List.mem_singleton] at hx'
    subst hx'
    rcases List.mem_map.mp hx with ⟨b, hb, hbf⟩
    exact hdup (List.any_eq_true.mpr ⟨b, hb, beq_iff_eq.mpr hbf⟩)

theorem saveSeq_unique (calls : List (String × List Nat)) :
    ∀ bs, uniqueFilenames bs →
      uniqueFilenames (calls.foldl (fun s c => (saveCsvToPostgres s c.1 c.2).2) bs) := by
  induction calls with
  | nil => intro bs h; exact h
  | cons c t ih =>
    intro bs h
    simp only [List.foldl_cons]
    exact ih _ (save_preserves_unique bs c.1 c.2 h)

/-! ### The claims -/

/-- C1, counterexample: the status UPDATE of the dispatch path is not
conditional on the current status.  Applied to a batch whose current status
is complete (so not equal to the expected notstarted), the claim says the
update fails and leaves the status unchanged; in fact it rewrites the
status to inprogress. -/
theorem C1_counterexample :
    updateStatusInprogress [⟨1, "leads.csv", [], "complete"⟩] 1 =
      [⟨1, "leads.csv", [], "inprogress"⟩] ∧
    updateStatusInprogress [⟨1, "leads.csv", [], "complete"⟩] 1 ≠
      [⟨1, "leads.csv", [], "complete"⟩] := by decide

/-- C1, amended: the UPDATE statement used by dispatch filters on the batch
id alone and unconditionally sets the matching row's status to inprogress,
whatever that row's current status is; rows with a different id are left
unchanged, and no row is added or removed.  The notstarted check happens
separately, before the external call, not inside the update. -/
theorem C1_update_unconditional (bs : List Batch) (id : Nat) :
    (∀ b ∈ bs, b.id = id →
      { b with status := "inprogress" } ∈ updateStatusInprogress bs id) ∧
    (∀ b ∈ bs, b.id ≠ id → b ∈ updateStatusInprogress bs id) ∧
    (updateStatusInprogress bs id).length = bs.length := by
  refine ⟨?_, ?_, by simp [updateStatusInprogress]⟩
  · intro b hb hid
    have he : ({ b with status := "inprogress" } : Batch) =
        (fun b => if b.id == id then { b with status := "inprogress" } else b) b := by
      simp [hid]
    rw [he]
    exact List.mem_map_of_mem _ hb
  · intro b hb hid
    have he : b = (fun b => if b.id == id then { b with status := "inprogress" } else b) b := by
      simp [hid]
    rw [he]
    exact List.mem_map_of_mem _ hb

/-- C1, witness for the amended theorem at a concrete input: the update at
id 1 rewrites a complete batch to inprogress. -/
theorem C1_update_unconditional_witness :
    ({ id := 1, filename := "leads.csv", csvData := [], status := "inprogress" } : Batch) ∈
      updateStatusInprogress [⟨1, "leads.csv", [], "complete"⟩] 1 :=
  (C1_update_unconditional [⟨1, "leads.csv", [], "complete"⟩] 1).1
    ⟨1, "leads.csv", [], "complete"⟩ (by simp) rfl

/-- C2: on a store whose ids are unique, the deduplication DELETE keeps
exactly the records that carry the minimum id of their username group
(first conjunct, a full characterization of the survivors, which contains
I4), afterwards no two survivors share a username (second conjunct, I3),
the reported count plus the survivor count is the whole store (third
conjunct), and on the spec's example store the survivors are exactly the
records with ids 1 and 3 and the reported count is 2 (fourth conjunct). -/
theorem C2_dedupe_correct (rs : List ResultRecord)
    (hids : ∀ r1 ∈ rs, ∀ r2 ∈ rs, r1.id = r2.id → r1 = r2) :
    (∀ r, r ∈ (dedupeRun rs).1 ↔
      r ∈ rs ∧ ∀ r2 ∈ rs, r2.username = r.username → r.id ≤ r2.id) ∧
    (∀ r1 ∈ (dedupeRun rs).1, ∀ r2 ∈ (dedupeRun rs).1,
      r1.username = r2.username → r1 = r2) ∧
    (dedupeRun rs).2 + ((dedupeRun rs).1).length = rs.length ∧
    dedupeRun exampleResults = ([⟨1, "A", []⟩, ⟨3, "B", []⟩], 2) := by
  have hchar : ∀ r, r ∈ (dedupeRun rs).1 ↔
      r ∈ rs ∧ ∀ r2 ∈ rs, r2.username = r.username → r.id ≤ r2.id := by
    intro r
    rw [dedupeRun]
    simp only [List.mem_filter, Bool.not_eq_true']
    rw [supersededBy_eq_false_iff]
  refine ⟨hchar, ?_, ?_, by decide⟩
  · intro r1 h1 r2 h2 hu
    rcases (hchar r1).mp h1 with ⟨hm1, hmin1⟩
    rcases (hchar r2).mp h2 with ⟨hm2, hmin2⟩
    have h12 : r1.id ≤ r2.id := hmin1 r2 hm2 hu.symm
    have h21 : r2.id ≤ r1.id := hmin2 r1 hm1 hu
    exact hids r1 hm1 r2 hm2 (by omega)
  · rw [dedupeRun]
    have := length_filter_split rs (fun r => supersededBy rs r)
    simpa using by omega

/-- C2, witness: the theorem applied to the spec's example store, whose
ids are unique. -/
theorem C2_dedupe_correct_witness :
    dedupeRun exampleResults = ([⟨1, "A", []⟩, ⟨3, "B", []⟩], 2) :=
  (C2_dedupe_correct exampleResults (by decide)).2.2.2

/-- C3, counterexample: invoked without the confirmation (outer button
pressed, confirmation button not pressed) the handler deletes no row, but
it does not fail either: no error is emitted, only the warning prompt.
The claim's statement that the unconfirmed invocation fails is false. -/
theorem C3_counterexample :
    DedupeMsg.errorMsg ∉ (dedupeHandler true false exampleResults).1 ∧
    (dedupeHandler true false exampleResults).1 = [DedupeMsg.warning] ∧
    (dedupeHandler true false exampleResults).2 = exampleResults := by decide

/-- C3, amended: the deduplication executes only when the confirmation is
given.  Without the confirmation the handler deletes no row — but it does
not fail: it emits no error, only the warning prompt.  With both the click
and the confirmation the DELETE runs and the removed count is reported. -/
theorem C3_confirmation_gate (rs : List ResultRecord) :
    (dedupeHandler true false rs).2 = rs ∧
    DedupeMsg.errorMsg ∉ (dedupeHandler true false rs).1 ∧
    DedupeMsg.warning ∈ (dedupeHandler true false rs).1 ∧
    (dedupeHandler false false rs).2 = rs ∧
    (dedupeHandler false false rs).1 = [] ∧
    (dedupeHandler true true rs).2 = (dedupeRun rs).1 ∧
    DedupeMsg.successRemoved (dedupeRun rs).2 ∈ (dedupeHandler true true rs).1 := by
  simp [dedupeHandler]

/-- C4, evaluation at the failing input: dispatching the notstarted batch
of c4Store when the webhook answers with status code 500 leaves the store
unchanged (as the claim says) but produces no error at all — the outcome is
the silent fall-through of lines 228-237, so the failure is swallowed,
contradicting the claim.  A transport failure, by contrast, does surface an
error (the outer exception reporter) with the store unchanged. -/
theorem C4_nonsuccess_swallowed :
    processLeads c4Store 1 (ExtCall.response 500) =
      ⟨DispatchOutcome.silentNonSuccess, true, some [97, 44, 98], c4Store⟩ ∧
    processLeads c4Store 1 ExtCall.transportError =
      ⟨DispatchOutcome.exceptionError, true, some [97, 44, 98], c4Store⟩ := by decide

/-- C5: the save handler refuses a filename that already exists and then
inserts nothing; on a fresh filename it appends exactly one batch whose
status is notstarted and whose csv_data is the JSON document of the
payload; it preserves filename uniqueness; and any sequence of save calls
starting from the empty store leaves the filenames unique. -/
theorem C5_register (bs : List Batch) (f : String) (p : List Nat) :
    ((∃ b ∈ bs, b.filename = f) →
      saveCsvToPostgres bs f p = (SaveOutcome.duplicateFilename, bs)) ∧
    ((¬ ∃ b ∈ bs, b.filename = f) →
      saveCsvToPostgres bs f p =
        (SaveOutcome.saved (freshId bs),
          bs ++ [{ id := freshId bs, filename := f,
                   csvData := jsonDumpsCsvContent p, status := "notstarted" }])) ∧
    (uniqueFilenames bs → uniqueFilenames (saveCsvToPostgres bs f p).2) ∧
    ∀ calls : List (String × List Nat),
      uniqueFilenames (calls.foldl (fun s c => (saveCsvToPostgres s c.1 c.2).2) []) := by
  refine ⟨?_, ?_, save_preserves_unique bs f p, ?_⟩
  · intro hex
    have h : bs.any (fun b => b.filename == f) = true := by
      rcases hex with ⟨b, hb, hf⟩
      exact List.any_eq_true.mpr ⟨b, hb, beq_iff_eq.mpr hf⟩
    simp [saveCsvToPostgres, h]
  · intro hnex
    have h : bs.any (fun b => b.filename == f) = false := by
      rw [List.any_eq_false]
      intro b hb
      simp only [beq_iff_eq]
      exact fun hf => hnex ⟨b, hb, hf⟩
    simp [saveCsvToPostgres, h]
  · intro calls
    exact saveSeq_unique calls [] (by simp [uniqueFilenames])

/-- C5, witness: registering a duplicate filename on a concrete one-batch
store fails and inserts nothing; registering a fresh one preserves
uniqueness. -/
theorem C5_register_witness :
    saveCsvToPostgres [⟨1, "leads.csv", [], "notstarted"⟩] "leads.csv" [97] =
      (SaveOutcome.duplicateFilename, [⟨1, "leads.csv", [], "notstarted"⟩]) ∧
    uniqueFilenames (saveCsvToPostgres [⟨1, "leads.csv", [], "notstarted"⟩] "a.csv" [97]).2 :=
  ⟨(C5_register [⟨1, "leads.csv", [], "notstarted"⟩] "leads.csv" [97]).1
      ⟨⟨1, "leads.csv", [], "notstarted"⟩, by simp, rfl⟩,
    (C5_register [⟨1, "leads.csv", [], "notstarted"⟩] "a.csv" [97]).2.2.1
      (by simp [uniqueFilenames])⟩

/-- C6: dispatch on a batch whose status is not notstarted fails with the
precondition outcome, calls no endpoint and returns the store unchanged;
dispatch on an id absent from the store fails with the not-found outcome,
likewise calling no endpoint and changing nothing. -/
theorem C6_precondition_and_notfound (bs : List Batch) (id : Nat) (ext : ExtCall) :
    (∀ b, findBatch bs id = some b → b.status ≠ "notstarted" →
      processLeads bs id ext = ⟨DispatchOutcome.preconditionFailed, false, none, bs⟩) ∧
    (findBatch bs id = none →
      processLeads bs id ext = ⟨DispatchOutcome.notFound, false, none, bs⟩) := by
  constructor
  · intro b hfind hst
    simp [processLeads, hfind, hst]
  · intro hfind
    simp [processLeads, hfind]

/-- C6, witness: a concrete inprogress batch is refused with the
precondition outcome, and a concrete absent id is refused as not found. -/
theorem C6_precondition_and_notfound_witness :
    processLeads [⟨1, "leads.csv", [], "inprogress"⟩] 1 (ExtCall.response 200) =
      ⟨DispatchOutcome.preconditionFailed, false, none, [⟨1, "leads.csv", [], "inprogress"⟩]⟩ ∧
    processLeads [⟨1, "leads.csv", [], "inprogress"⟩] 2 (ExtCall.response 200) =
      ⟨DispatchOutcome.notFound, false, none, [⟨1, "leads.csv", [], "inprogress"⟩]⟩ :=
  ⟨(C6_precondition_and_notfound [⟨1, "leads.csv", [], "inprogress"⟩] 1
      (ExtCall.response 200)).1 ⟨1, "leads.csv", [], "inprogress"⟩ rfl (by decide),
    (C6_precondition_and_notfound [⟨1, "leads.csv", [], "inprogress"⟩] 2
      (ExtCall.response 200)).2 rfl⟩

/-! ### Round-trip of the payload encoding -/

theorem hexVal_hexDigit : ∀ n < 16, hexVal (hexDigit n) = some n := by decide

theorem hex4Val_hex4 (n : Nat) (h : n < 65536) :
    hex4Val (hexDigit (n / 4096 % 16)) (hexDigit (n / 256 % 16))
      (hexDigit (n / 16 % 16)) (hexDigit (n % 16)) = some n := by
  have e1 := hexVal_hexDigit (n / 4096 % 16) (Nat.mod_lt _ (by omega))
  have e2 := hexVal_hexDigit (n / 256 % 16) (Nat.mod_lt _ (by omega))
  have e3 := hexVal_hexDigit (n / 16 % 16) (Nat.mod_lt _ (by omega))
  have e4 := hexVal_hexDigit (n % 16) (Nat.mod_lt _ (by omega))
  simp only [hex4Val, e1, e2, e3, e4]
  have harith : n / 4096 % 16 * 4096 + n / 256 % 16 * 256 + n / 16 % 16 * 16 + n % 16 = n := by
    omega
  rw [harith]

theorem scan_quote (f : Nat) (t : List Nat) : scanString (f + 1) (34 :: t) = some ([], t) := rfl

theorem scan_esc_34 (f : Nat) (t : List Nat) :
    scanString (f + 1) (92 :: 34 :: t) = (scanString f t).map (fun r => (34 :: r.1, r.2)) := rfl

theorem scan_esc_92 (f : Nat) (t : List Nat) :
    scanString (f + 1) (92 :: 92 :: t) = (scanString f t).map (fun r => (92 :: r.1, r.2)) := rfl

theorem scan_esc_98 (f : Nat) (t : List Nat) :
    scanString (f + 1) (92 :: 98 :: t) = (scanString f t).map (fun r => (8 :: r.1, r.2)) := rfl

theorem scan_esc_102 (f : Nat) (t : List Nat) :
    scanString (f + 1) (92 :: 102 :: t) = (scanString f t).map (fun r => (12 :: r.1, r.2)) := rfl

theorem scan_esc_110 (f : Nat) (t : List Nat) :
    scanString (f + 1) (92 :: 110 :: t) = (scanString f t).map (fun r => (10 :: r.1, r.2)) := rfl

theorem scan_esc_114 (f : Nat) (t : List Nat) :
    scanString (f + 1) (92 :: 114 :: t) = (scanString f t).map (fun r => (13 :: r.1, r.2)) := rfl

theorem scan_esc_116 (f : Nat) (t : List Nat) :
    scanString (f + 1) (92 :: 116 :: t) = (scanString f t).map (fun r => (9 :: r.1, r.2)) := rfl

theorem scan_literal (f c : Nat) (t : List Nat)
    (h1 : ¬c = 34) (h2 : ¬c = 92) (h3 : ¬c < 32) :
    scanString (f + 1) (c :: t) = (scanString f t).map (fun r => (c :: r.1, r.2)) := by
  cases t with
  | nil =>
    simp only [scanString]
    rw [if_neg h1, if_neg h2, if_neg h3]
  | cons x xs =>
    simp only [scanString]
    rw [if_neg h1, if_neg h2, if_neg h3]

theorem scan_u_step (f a b e d : Nat) (t : List Nat) :
    scanString (f + 1) (92 :: 117 :: a :: b :: e :: d :: t) =
      match hex4Val a b e d with
      | none => none
      | some h =>
        if 55296 ≤ h ∧ h < 56320 then
          match surrogateTail t with
          | some (h2, t3) =>
            (scanString f t3).map
              (fun r => ((65536 + (h - 55296) * 1024 + (h2 - 56320)) :: r.1, r.2))
          | none => (scanString f t).map (fun r => (h :: r.1, r.2))
        else (scanString f t).map (fun r => (h :: r.1, r.2)) := rfl

theorem scan_u_plain (f a b e d h : Nat) (t : List Nat)
    (hv : hex4Val a b e d = some h) (hns : ¬(55296 ≤ h ∧ h < 56320)) :
    scanString (f + 1) (92 :: 117 :: a :: b :: e :: d :: t) =
      (scanString f t).map (fun r => (h :: r.1, r.2)) := by
  rw [scan_u_step, hv]
  simp [hns]

theorem surrogateTail_some (a2 b2 e2 d2 h2 : Nat) (t : List Nat)
    (hv2 : hex4Val a2 b2 e2 d2 = some h2) (hm1 : 56320 ≤ h2) (hm2 : h2 < 57344) :
    surrogateTail (92 :: 117 :: a2 :: b2 :: e2 :: d2 :: t) = some (h2, t) := by
  simp [surrogateTail, hv2, hm1, hm2]

theorem scan_u_pair (f a b e d a2 b2 e2 d2 h h2 : Nat) (t : List Nat)
    (hv : hex4Val a b e d = some h) (hl1 : 55296 ≤ h) (hl2 : h < 56320)
    (hv2 : hex4Val a2 b2 e2 d2 = some h2) (hm1 : 56320 ≤ h2) (hm2 : h2 < 57344) :
    scanString (f + 1)
        (92 :: 117 :: a :: b :: e :: d :: 92 :: 117 :: a2 :: b2 :: e2 :: d2 :: t) =
      (scanString f t).map
        (fun r => ((65536 + (h - 55296) * 1024 + (h2 - 56320)) :: r.1, r.2)) := by
  rw [scan_u_step, hv]
  simp [hl1, hl2, surrogateTail_some a2 b2 e2 d2 h2 t hv2 hm1 hm2]

theorem escapeChar_ne_nil (c : Nat) : escapeChar c ≠ [] := by
  rw [escapeChar]
  repeat' split
  all_goals simp [hex4]

/-- The scanner inverts the escaper: on any valid payload text followed by
the closing quote and a remainder, it recovers the text and the remainder,
given enough fuel. -/
theorem scanString_escape (p : List Nat) (rest : List Nat) :
    ∀ fuel, (∀ c ∈ p, validScalar c) →
      ((p.map escapeChar).flatten).length + 1 ≤ fuel →
      scanString fuel ((p.map escapeChar).flatten ++ 34 :: rest) = some (p, rest) := by
  induction p with
  | nil =>
    intro fuel _ hf
    cases fuel with
    | zero => omega
    | succ f =>
      simp only [List.map_nil, List.flatten_nil, List.nil_append]
      exact scan_quote f rest
  | cons c p ih =>
    intro fuel hv hf
    have hvc : validScalar c := hv c (List.mem_cons_self c p)
    have hvp : ∀ x ∈ p, validScalar x := fun x hx => hv x (List.mem_cons_of_mem c hx)
    cases fuel with
    | zero =>
      simp only [List.map_cons, List.flatten_cons, List.length_append] at hf
      omega
    | succ f =>
      simp only [List.map_cons, List.flatten_cons, List.length_append] at hf
      simp only [List.map_cons, List.flatten_cons, List.append_assoc]
      have hfp : ((p.map escapeChar).flatten).length + 1 ≤ f := by
        have hlen : 0 < (escapeChar c).length := List.length_pos.mpr (escapeChar_ne_nil c)
        omega
      have ihf := ih f hvp (by omega)
      by_cases h34 : c = 34
      · subst h34
        rw [show escapeChar 34 = [92, 34] from rfl]
        simp only [List.cons_append, List.nil_append]
        rw [scan_esc_34, ihf]
        rfl
      by_cases h92 : c = 92
      · subst h92
        rw [show escapeChar 92 = [92, 92] from rfl]
        simp only [List.cons_append, List.nil_append]
        rw [scan_esc_92, ihf]
        rfl
      by_cases h8 : c = 8
      · subst h8
        rw [show escapeChar 8 = [92, 98] from rfl]
        simp only [List.cons_append, List.nil_append]
        rw [scan_esc_98, ihf]
        rfl
      by_cases h9 : c = 9
      · subst h9
        rw [show escapeChar 9 = [92, 116] from rfl]
        simp only [List.cons_append, List.nil_append]
        rw [scan_esc_116, ihf]
        rfl
      by_cases h10 : c = 10
      · subst h10
        rw [show escapeChar 10 = [92, 110] from rfl]
        simp only [List.cons_append, List.nil_append]
        rw [scan_esc_110, ihf]
        rfl
      by_cases h12 : c = 12
      · subst h12
        rw [show escapeChar 12 = [92, 102] from rfl]
        simp only [List.cons_append, List.nil_append]
        rw [scan_esc_102, ihf]
        rfl
      by_cases h13 : c = 13
      · subst h13
        rw [show escapeChar 13 = [92, 114] from rfl]
        simp only [List.cons_append, List.nil_append]
        rw [scan_esc_114, ihf]
        rfl
      by_cases hctl : c < 32
      · have he : escapeChar c = 92 :: 117 :: hex4 c := by
          rw [escapeChar]
          rw [if_neg h34, if_neg h92, if_neg h8, if_neg h9, if_neg h10, if_neg h12,
            if_neg h13, if_pos hctl]
        rw [he]
        simp only [hex4, List.cons_append, List.nil_append]
        rw [scan_u_plain f _ _ _ _ c _ (hex4Val_hex4 c (by omega)) (by omega), ihf]
        rfl
      by_cases hasc : c ≤ 126
      · have he : escapeChar c = [c] := by
          rw [escapeChar]
          rw [if_neg h34, if_neg h92, if_neg h8, if_neg h9, if_neg h10, if_neg h12,
            if_neg h13, if_neg hctl, if_pos hasc]
        rw [he]
        simp only [List.cons_append, List.nil_append]
        rw [scan_literal f c _ h34 h92 hctl, ihf]
        rfl
      by_cases hbmp : c < 65536
      · have he : escapeChar c = 92 :: 117 :: hex4 c := by
          rw [escapeChar]
          rw [if_neg h34, if_neg h92, if_neg h8, if_neg h9, if_neg h10, if_neg h12,
            if_neg h13, if_neg hctl, if_neg (by omega : ¬c ≤ 126), if_pos hbmp]
        rw [he]
        simp only [hex4, List.cons_append, List.nil_append]
        have hns : ¬(55296 ≤ c ∧ c < 56320) := by
          rcases hvc with ⟨_, hs | hs⟩ <;> omega
        rw [scan_u_plain f _ _ _ _ c _ (hex4Val_hex4 c hbmp) hns, ihf]
        rfl
      · have he : escapeChar c =
            92 :: 117 :: hex4 (55296 + (c - 65536) / 1024) ++
              92 :: 117 :: hex4 (56320 + (c - 65536) % 1024) := by
          rw [escapeChar]
          rw [if_neg h34, if_neg h92, if_neg h8, if_neg h9, if_neg h10, if_neg h12,
            if_neg h13, if_neg hctl, if_neg (by omega : ¬c ≤ 126), if_neg hbmp]
        rw [he]
        have hdiv : (c - 65536) / 1024 < 1024 := by
          rcases hvc with ⟨hlt, _⟩
          omega
        have hmod : (c - 65536) % 1024 < 1024 := by omega
        simp only [hex4, List.cons_append, List.nil_append]
        rw [scan_u_pair f _ _ _ _ _ _ _ _ (55296 + (c - 65536) / 1024)
          (56320 + (c - 65536) % 1024) _
          (hex4Val_hex4 _ (by omega)) (by omega) (by omega)
          (hex4Val_hex4 _ (by omega)) (by omega) (by omega), ihf]
        have hc : 65536 + (55296 + (c - 65536) / 1024 - 55296) * 1024 +
            (56320 + (c - 65536) % 1024 - 56320) = c := by
          omega
        rw [hc]
        rfl

theorem take_len_append {α : Type} (l1 l2 : List α) : (l1 ++ l2).take l1.length = l1 := by
  induction l1 with
  | nil => rfl
  | cons a t ih => simp [ih]

theorem drop_len_append {α : Type} (l1 l2 : List α) : (l1 ++ l2).drop l1.length = l2 := by
  induction l1 with
  | nil => rfl
  | cons a t ih => simp [ih]

/-- The stored document written at registration decodes back to the payload
text it was built from: json.loads composed with the csv_content lookup
inverts json.dumps of the one-key dict. -/
theorem jsonLoads_jsonDumps (p : List Nat) (hv : ∀ c ∈ p, validScalar c) :
    jsonLoadsCsvContent (jsonDumpsCsvContent p) = some p := by
  rw [jsonLoadsCsvContent, jsonDumpsCsvContent]
  have hassoc : csvContentKey ++ (p.map escapeChar).flatten ++ [34, 125] =
      csvContentKey ++ ((p.map escapeChar).flatten ++ [34, 125]) := by
    rw [List.append_assoc]
  rw [hassoc]
  have hk : (17 : Nat) = csvContentKey.length := rfl
  rw [hk, take_len_append, drop_len_append, if_pos rfl]
  have hscan : scanString (csvContentKey ++ ((p.map escapeChar).flatten ++ [34, 125])).length
      ((p.map escapeChar).flatten ++ [34, 125]) = some (p, [125]) := by
    have hlist : (p.map escapeChar).flatten ++ [34, 125] =
        (p.map escapeChar).flatten ++ 34 :: [125] := rfl
    rw [hlist]
    apply scanString_escape p [125] _ hv
    simp [List.length_append]
    omega
  rw [hscan]

/-- C10: the payload round-trip.  For every payload text p (a sequence of
Unicode scalar values), decoding the document stored at registration yields
p back, and whenever a dispatch of a batch registered with payload p
reaches the external endpoint, the body it posts is exactly p. -/
theorem C10_payload_roundtrip (p : List Nat) (hv : ∀ c ∈ p, validScalar c) :
    jsonLoadsCsvContent (jsonDumpsCsvContent p) = some p ∧
    ∀ (bs : List Batch) (id : Nat) (ext : ExtCall) (b : Batch),
      findBatch bs id = some b → b.csvData = jsonDumpsCsvContent p →
      (processLeads bs id ext).endpointCalled = true →
      (processLeads bs id ext).bodySent = some p := by
  have hrt := jsonLoads_jsonDumps p hv
  refine ⟨hrt, ?_⟩
  intro bs id ext b hfind hdata hcall
  by_cases hst : b.status = "notstarted"
  · by_cases hp : p = []
    · subst hp
      simp [processLeads, hfind, hst, hdata, hrt] at hcall
    · cases ext with
      | transportError => simp [processLeads, hfind, hst, hdata, hrt, hp]
      | response code =>
        by_cases h200 : code = 200 <;>
          simp [processLeads, hfind, hst, hdata, hrt, hp, h200]
  · simp [processLeads, hfind, hst] at hcall

/-- C10, witness: a concrete payload round-trips and is the body posted by
a concrete successful dispatch. -/
theorem C10_payload_roundtrip_witness :
    jsonLoadsCsvContent (jsonDumpsCsvContent [97, 44, 98]) = some [97, 44, 98] ∧
    (processLeads c4Store 1 (ExtCall.response 200)).bodySent = some [97, 44, 98] :=
  ⟨(C10_payload_roundtrip [97, 44, 98] (by decide)).1,
    (C10_payload_roundtrip [97, 44, 98] (by decide)).2 c4Store 1 (ExtCall.response 200)
      ⟨1, "leads.csv", jsonDumpsCsvContent [97, 44, 98], "notstarted"⟩ rfl rfl (by decide)⟩

/-! ### Dispatch success and the status lifecycle -/

theorem findBatch_updateStatus (bs : List Batch) (id : Nat) :
    findBatch (updateStatusInprogress bs id) id =
      (findBatch bs id).map (fun b => { b with status := "inprogress" }) := by
  induction bs with
  | nil => rfl
  | cons b t ih =>
    show List.find? (fun x => x.id == id)
        ((if b.id == id then { b with status := "inprogress" } else b) ::
          updateStatusInprogress t id) =
      (List.find? (fun x => x.id == id) (b :: t)).map
        (fun x => { x with status := "inprogress" })
    by_cases h : (b.id == id) = true
    · rw [if_pos h,
        @List.find?_cons_of_pos Batch (fun x => x.id == id)
          ({ b with status := "inprogress" }) (updateStatusInprogress t id) h,
        @List.find?_cons_of_pos Batch (fun x => x.id == id) b t h]
      rfl
    · rw [if_neg h,
        @List.find?_cons_of_neg Batch (fun x => x.id == id) b (updateStatusInprogress t id) h,
        @List.find?_cons_of_neg Batch (fun x => x.id == id) b t h]
      exact ih

/-- C8: dispatching a notstarted batch whose stored payload decodes to a
nonempty text, when the webhook answers 200, reports success and updates
exactly that batch's status to inprogress; a second dispatch of the same id
then fails with the precondition outcome, calls no endpoint and changes
nothing. -/
theorem C8_dispatch_success_then_refusal (bs : List Batch) (id : Nat) (b : Batch)
    (t : List Nat) (hfind : findBatch bs id = some b) (hst : b.status = "notstarted")
    (hdec : jsonLoadsCsvContent b.csvData = some t) (ht : ¬t = []) (ext2 : ExtCall) :
    processLeads bs id (ExtCall.response 200) =
      ⟨DispatchOutcome.success, true, some t, updateStatusInprogress bs id⟩ ∧
    findBatch (updateStatusInprogress bs id) id = some { b with status := "inprogress" } ∧
    processLeads (updateStatusInprogress bs id) id ext2 =
      ⟨DispatchOutcome.preconditionFailed, false, none, updateStatusInprogress bs id⟩ := by
  have hfind2 : findBatch (updateStatusInprogress bs id) id =
      some { b with status := "inprogress" } := by
    rw [findBatch_updateStatus, hfind]
    rfl
  refine ⟨by simp [processLeads, hfind, hst, hdec, ht], hfind2, ?_⟩
  simp [processLeads, hfind2]

/-- C8, witness: the concrete one-batch store dispatched with a 200
response, then dispatched again. -/
theorem C8_dispatch_success_then_refusal_witness :
    processLeads c4Store 1 (ExtCall.response 200) =
      ⟨DispatchOutcome.success, true, some [97, 44, 98], updateStatusInprogress c4Store 1⟩ ∧
    findBatch (updateStatusInprogress c4Store 1) 1 =
      some ⟨1, "leads.csv", jsonDumpsCsvContent [97, 44, 98], "inprogress"⟩ ∧
    processLeads (updateStatusInprogress c4Store 1) 1 (ExtCall.response 200) =
      ⟨DispatchOutcome.preconditionFailed, false, none, updateStatusInprogress c4Store 1⟩ :=
  C8_dispatch_success_then_refusal c4Store 1
    ⟨1, "leads.csv", jsonDumpsCsvContent [97, 44, 98], "notstarted"⟩ [97, 44, 98]
    rfl rfl (by decide) (by decide) (ExtCall.response 200)

theorem statusLe_refl (a : String) : statusLe a a := Or.inl rfl

theorem statusLe_trans (a b c : String) (h1 : statusLe a b) (h2 : statusLe b c) :
    statusLe a c := by
  rcases h1 with rfl | ⟨rfl, rfl | rfl⟩ | ⟨rfl, rfl⟩
  · exact h2
  · rcases h2 with rfl | ⟨h, _⟩ | ⟨_, rfl⟩
    · exact Or.inr (Or.inl ⟨rfl, Or.inl rfl⟩)
    · exact absurd h (by decide)
    · exact Or.inr (Or.inl ⟨rfl, Or.inr rfl⟩)
  · rcases h2 with rfl | ⟨h, _⟩ | ⟨h, _⟩
    · exact Or.inr (Or.inl ⟨rfl, Or.inr rfl⟩)
    · exact absurd h (by decide)
    · exact absurd h (by decide)
  · rcases h2 with rfl | ⟨h, _⟩ | ⟨h, _⟩
    · exact Or.inr (Or.inr ⟨rfl, rfl⟩)
    · exact absurd h (by decide)
    · exact absurd h (by decide)

theorem updateStatus_map_id (bs : List Batch) (id : Nat) :
    (updateStatusInprogress bs id).map Batch.id = bs.map Batch.id := by
  induction bs with
  | nil => rfl
  | cons b t ih =>
    show Batch.id (if b.id == id then { b with status := "inprogress" } else b) ::
        (updateStatusInprogress t id).map Batch.id = b.id :: t.map Batch.id
    by_cases h : (b.id == id) = true
    · rw [if_pos h, ih]
    · rw [if_neg h, ih]

theorem processLeads_store_eq (bs : List Batch) (id : Nat) (ext : ExtCall) :
    (processLeads bs id ext).store = bs ∨
    ((processLeads bs id ext).store = updateStatusInprogress bs id ∧
      ∃ b, findBatch bs id = some b ∧ b.status = "notstarted") := by
  cases hf : findBatch bs id with
  | none => simp [processLeads, hf]
  | some b =>
    by_cases hst : b.status = "notstarted"
    · cases hd : jsonLoadsCsvContent b.csvData with
      | none => simp [processLeads, hf, hst, hd]
      | some t =>
        by_cases ht : t = []
        · simp [processLeads, hf, hst, hd, ht]
        · cases ext with
          | transportError => simp [processLeads, hf, hst, hd, ht]
          | response code =>
            by_cases hc : code = 200
            · exact Or.inr ⟨by simp [processLeads, hf, hst, hd, ht, hc], b, rfl, hst⟩
            · simp [processLeads, hf, hst, hd, ht, hc]
    · simp [processLeads, hf, hst]

theorem id_le_maxBatchId (bs : List Batch) (b : Batch) (hb : b ∈ bs) :
    b.id ≤ maxBatchId bs := by
  induction bs with
  | nil => cases hb
  | cons a t ih =>
    rcases List.mem_cons.mp hb with rfl | h
    · exact le_max_left _ _
    · exact le_trans (ih h) (le_max_right _ _)

theorem freshId_not_mem (bs : List Batch) : freshId bs ∉ bs.map Batch.id := by
  intro hmem
  rcases List.mem_map.mp hmem with ⟨b, hb, hid⟩
  have hle := id_le_maxBatchId bs b hb
  rw [freshId] at hid
  omega

theorem saveCsv_mem (bs : List Batch) (f : String) (p : List Nat) (b : Batch)
    (hb : b ∈ bs) : b ∈ (saveCsvToPostgres bs f p).2 := by
  by_cases h : bs.any (fun x => x.filename == f) = true
  · simpa [saveCsvToPostgres, h] using hb
  · simp only [saveCsvToPostgres, h, Bool.false_eq_true, if_false]
    exact List.mem_append_left _ hb

theorem applyOp_nodup (s : SysState) (op : Op)
    (h : (s.batches.map Batch.id).Nodup) :
    ((applyOp s op).batches.map Batch.id).Nodup := by
  cases op with
  | save f p =>
    show (((saveCsvToPostgres s.batches f p).2).map Batch.id).Nodup
    by_cases hd : s.batches.any (fun x => x.filename == f) = true
    · simpa [saveCsvToPostgres, hd] using h
    · simp only [saveCsvToPostgres, hd, Bool.false_eq_true, if_false, List.map_append,
        List.map_cons, List.map_nil]
      rw [List.nodup_append]
      exact ⟨h, List.nodup_singleton _, by
        intro x hx hx'
        simp only [List.mem_singleton] at hx'
        subst hx'
        exact freshId_not_mem s.batches hx⟩
  | process id ext =>
    show (((processLeads s.batches id ext).store).map Batch.id).Nodup
    rcases processLeads_store_eq s.batches id ext with heq | ⟨heq, _⟩
    · rw [heq]; exact h
    · rw [heq, updateStatus_map_id]; exact h
  | dedupe c cc => exact h
  | refresh => exact h

theorem applyOp_status_step (s : SysState) (op : Op)
    (hnd : (s.batches.map Batch.id).Nodup) (b : Batch) (hb : b ∈ s.batches) :
    ∃ b', b' ∈ (applyOp s op).batches ∧ b'.id = b.id ∧ statusLe b.status b'.status := by
  cases op with
  | save f p => exact ⟨b, saveCsv_mem s.batches f p b hb, rfl, statusLe_refl b.status⟩
  | dedupe c cc => exact ⟨b, hb, rfl, statusLe_refl b.status⟩
  | refresh => exact ⟨b, hb, rfl, statusLe_refl b.status⟩
  | process id ext =>
    rcases processLeads_store_eq s.batches id ext with heq | ⟨heq, b0, hf0, hst0⟩
    · refine ⟨b, ?_, rfl, statusLe_refl b.status⟩
      show b ∈ (processLeads s.batches id ext).store
      rw [heq]
      exact hb
    · by_cases hid : (b.id == id) = true
      · have hb0mem : b0 ∈ s.batches := List.mem_of_find?_eq_some hf0
        have hb0id : (b0.id == id) = true :=
          @List.find?_some Batch (fun x => x.id == id) b0 s.batches hf0
        have hbeq : b = b0 :=
          List.inj_on_of_nodup_map hnd hb hb0mem
            ((eq_of_beq hid).trans (eq_of_beq hb0id).symm)
        refine ⟨{ b with status := "inprogress" }, ?_, rfl, ?_⟩
        · show _ ∈ (processLeads s.batches id ext).store
          rw [heq]
          have he : ({ b with status := "inprogress" } : Batch) =
              (fun x => if x.id == id then { x with status := "inprogress" } else x) b := by
            simp [hid]
          rw [he]
          exact List.mem_map_of_mem _ hb
        · exact Or.inr (Or.inl ⟨by rw [hbeq]; exact hst0, Or.inl rfl⟩)
      · refine ⟨b, ?_, rfl, statusLe_refl b.status⟩
        show b ∈ (processLeads s.batches id ext).store
        rw [heq]
        have he : b =
            (fun x => if x.id == id then { x with status := "inprogress" } else x) b := by
          simp [hid]
        rw [he]
        exact List.mem_map_of_mem _ hb

/-- C7: status monotonicity.  Starting from any state whose batch ids are
unique, no sequence of core operations ever moves a batch's status backward
along the lifecycle: for every batch present before the run there is
afterwards a batch of the same id whose status is the same or further along
notstarted, inprogress, complete. -/
theorem C7_status_monotone (s : SysState) (ops : List Op) (b : Batch)
    (hnd : (s.batches.map Batch.id).Nodup) (hb : b ∈ s.batches) :
    ∃ b', b' ∈ (runOps s ops).batches ∧ b'.id = b.id ∧ statusLe b.status b'.status := by
  induction ops generalizing s b with
  | nil => exact ⟨b, hb, rfl, statusLe_refl b.status⟩
  | cons op rest ih =>
    rcases applyOp_status_step s op hnd b hb with ⟨b1, hb1, hid1, hle1⟩
    rcases ih (applyOp s op) b1 (applyOp_nodup s op hnd) hb1 with ⟨b2, hb2, hid2, hle2⟩
    exact ⟨b2, hb2, by rw [hid2, hid1], statusLe_trans _ _ _ hle1 hle2⟩

/-- C7, witness: a concrete run that registers a second batch, dispatches
the first successfully and refreshes. -/
theorem C7_status_monotone_witness :
    ∃ b', b' ∈ (runOps ⟨c4Store, []⟩
        [Op.save "b.csv" [98], Op.process 1 (ExtCall.response 200), Op.refresh]).batches ∧
      b'.id = 1 ∧ statusLe "notstarted" b'.status :=
  C7_status_monotone ⟨c4Store, []⟩
    [Op.save "b.csv" [98], Op.process 1 (ExtCall.response 200), Op.refresh]
    ⟨1, "leads.csv", jsonDumpsCsvContent [97, 44, 98], "notstarted"⟩ (by decide) (by decide)

/-- C9: the batch listing query returns the store's rows ordered by
filename ascending, leaves both stores unchanged, and two consecutive calls
with no intervening mutation return identical output. -/
theorem C9_list_ordered_pure (s : SysState) :
    (listFilesRead s).2 = s ∧
    List.Sorted fileRowLe (listFilesRead s).1 ∧
    (listFilesRead ((listFilesRead s).2)).1 = (listFilesRead s).1 :=
  ⟨rfl, List.sorted_insertionSort fileRowLe _, rfl⟩

end LeadsValidator
